import Mathlib

/- Verification of the resume-to-job matching utilities of this repository
   (04_module/app/tools.py, with the near-duplicate agent-tool variants of
   04_module/app/ai_agent.py). Strings are modelled through their character
   lists so that every operation is kernel-computable. -/

namespace JobMatch

/-- Character-wise lower-casing (model of Python str.lower on ASCII text). -/
def lowerStr (s : String) : String := ⟨s.data.map Char.toLower⟩

/-- True when the string is empty or all whitespace
(model of the Python test `not s or not s.strip()`). -/
def isBlank (s : String) : Bool := s.data.all Char.isWhitespace

/-- Python str.strip: drop leading and trailing whitespace. -/
def stripStr (s : String) : String :=
  ⟨((s.data.dropWhile Char.isWhitespace).reverse.dropWhile Char.isWhitespace).reverse⟩

/-- First n characters of a string (model of the slice s[:n]). -/
def strTake (s : String) (n : Nat) : String := ⟨s.data.take n⟩

/-- Number of characters (model of len(s)). -/
def strLen (s : String) : Nat := s.data.length

/-- Whether the first list is a prefix of the second, as a boolean. -/
def listPrefixOf : List Char → List Char → Bool
  | [], _ => true
  | _ :: _, [] => false
  | a :: as, b :: bs => a == b && listPrefixOf as bs

/-- Whether the first list occurs contiguously inside the second. -/
def listInfixOf (needle : List Char) : List Char → Bool
  | [] => listPrefixOf needle []
  | b :: bs => listPrefixOf needle (b :: bs) || listInfixOf needle bs

/-- Substring containment: model of the Python test `needle in haystack`. -/
def containsSub (haystack needle : String) : Bool :=
  listInfixOf needle.data haystack.data

/-- Helper for `wordCount`: the flag records whether we are inside a word. -/
def countWordsAux : List Char → Bool → Nat
  | [], _ => 0
  | c :: cs, inWord =>
    if c.isWhitespace then countWordsAux cs false
    else (if inWord then 0 else 1) + countWordsAux cs true

/-- Number of maximal non-whitespace runs (model of len(s.split())). -/
def wordCount (s : String) : Nat := countWordsAux s.data false

/-- One row of the job-postings table. A `none` field models a missing
column or NaN cell (the code guards those with pd.notna). -/
structure Job where
  job_title : Option String
  company_name : String
  location : String
  salary : Option String
  job_description : Option String
deriving DecidableEq

/-- The searchable text built by calculate_job_score: lower-cased title then
lower-cased description, each followed by one space, missing fields skipped. -/
def jobText (job : Job) : String :=
  (match job.job_title with
    | some t => lowerStr t ++ " "
    | none => "") ++
  (match job.job_description with
    | some d => lowerStr d ++ " "
    | none => "")

/-- Result record of calculate_job_score. -/
structure ScoreResult where
  score : Nat
  matched_skills : List String
deriving DecidableEq

/-- The fixed high-value skill list of calculate_job_score. -/
def highValueSkills : List String := ["python", "javascript", "java", "react", "django"]

/-- Per-skill weight of calculate_job_score: 2 for length ≤ 3, else 3 for a
high-value skill, else 1. -/
def skillWeight (skill : String) : Nat :=
  if strLen skill ≤ 3 then 2
  else if skill ∈ highValueSkills then 3
  else 1

/-- The scoring loop of calculate_job_score: accumulate the weight of every
skill contained in the job text, collecting the matches in order. -/
def scorePass (job_text : String) : List String → Nat × List String
  | [] => (0, [])
  | skill :: rest =>
    if containsSub job_text skill then
      (skillWeight skill + (scorePass job_text rest).1,
        skill :: (scorePass job_text rest).2)
    else scorePass job_text rest

/-- calculate_job_score of tools.py (ai_agent.py carries an identical copy):
blank searchable text scores 0 with no matches; otherwise sum the per-skill
weights and add +2 for at least 3 matches and a further +3 for at least 5. -/
def calculate_job_score (job : Job) (skills : List String) : ScoreResult :=
  if isBlank (jobText job) then ⟨0, []⟩
  else
    let r := scorePass (jobText job) skills
    ⟨r.1 + ((if 3 ≤ r.2.length then 2 else 0) + (if 5 ≤ r.2.length then 3 else 0)), r.2⟩

/-- One entry of the job_scores list built by find_best_job_match: the
positional table index, the score, the matched skills and the posting. -/
structure ScoredJob where
  index : Nat
  score : Nat
  matched_skills : List String
  job_data : Job
deriving DecidableEq

/-- The scoring loop of the matchers: score each posting, pairing it with its
positional index (the data frame's default integer index), starting at i. -/
def scoreJobsFrom (skills : List String) : Nat → List Job → List ScoredJob
  | _, [] => []
  | i, job :: rest =>
    ⟨i, (calculate_job_score job skills).score,
      (calculate_job_score job skills).matched_skills, job⟩ ::
      scoreJobsFrom skills (i + 1) rest

/-- All postings scored against the skill list, indexed from 0. -/
def scoredJobs (skills : List String) (jobs : List Job) : List ScoredJob :=
  scoreJobsFrom skills 0 jobs

/-- Insert x into a list already sorted by descending key, after every element
with a strictly larger key and before the rest: combined with `sortDescBy`
this reproduces Python's stable descending sort. -/
def insertDescBy (key : α → Nat) (x : α) : List α → List α
  | [] => [x]
  | y :: ys => if key x < key y then y :: insertDescBy key x ys else x :: y :: ys

/-- Stable sort by descending key: the model of
`list.sort(key=..., reverse=True)`. -/
def sortDescBy (key : α → Nat) : List α → List α
  | [] => []
  | x :: xs => insertDescBy key x (sortDescBy key xs)

/-- The ranking find_best_job_match sorts: every scored posting, by
descending score, ties in original table order. -/
def rankedScores (skills : List String) (jobs : List Job) : List ScoredJob :=
  sortDescBy ScoredJob.score (scoredJobs skills jobs)

/-- The ranking of the alternatives path: only postings with a positive
score, by descending score, ties in original table order. -/
def rankedQualified (skills : List String) (jobs : List Job) : List ScoredJob :=
  sortDescBy ScoredJob.score ((scoredJobs skills jobs).filter fun sj => 0 < sj.score)

/-- The best-match record returned on success. The reasoning narration of the
ai_agent.py variant (a formatted string) is not modelled. -/
structure MatchSummary where
  job_title : Option String
  company_name : String
  location : String
  salary : String
  job_description : String
  match_score : Nat
  matched_skills : List String
  total_jobs_analyzed : Nat
deriving DecidableEq

/-- Result of find_best_job_match: either the error dictionary (identified by
its error message) or the populated best-match record. -/
inductive BestMatchResult where
  | failure (msg : String)
  | found (s : MatchSummary)
deriving DecidableEq

/-- The total_jobs_analyzed field of a best-match result, when present. -/
def BestMatchResult.totalAnalyzed : BestMatchResult → Option Nat
  | .failure _ => none
  | .found s => some s.total_jobs_analyzed

/-- The job_description field of a best-match result, when present. -/
def BestMatchResult.descriptionField : BestMatchResult → Option String
  | .failure _ => none
  | .found s => some s.job_description

/-- Build the success record of find_best_job_match from the winning entry. -/
def mkSummary (best : ScoredJob) (total : Nat) : MatchSummary :=
  { job_title := best.job_data.job_title
    company_name := best.job_data.company_name
    location := best.job_data.location
    salary := best.job_data.salary.getD "Not specified"
    job_description := strTake (best.job_data.job_description.getD "") 300 ++ "..."
    match_score := best.score
    matched_skills := best.matched_skills
    total_jobs_analyzed := total }

/-- find_best_job_match of tools.py: empty table or empty skills give the
first error record; all postings are scored and stably sorted by descending
score; a zero top score gives the second error record; otherwise the head is
returned with total_jobs_analyzed = length of the full scored list. -/
def find_best_job_match (skills : List String) (jobs : List Job) : BestMatchResult :=
  if jobs.isEmpty || skills.isEmpty then
    .failure "No jobs available or no skills provided"
  else
    match rankedScores skills jobs with
    | [] => .failure "No matching jobs found"
    | best :: rest =>
      if best.score = 0 then .failure "No matching jobs found"
      else .found (mkSummary best (best :: rest).length)

/-- find_best_job_match of ai_agent.py: skills are lower-cased and stripped,
postings with score 0 are dropped before the emptiness check and the sort, and
total_jobs_analyzed = length of the filtered list. -/
def find_best_job_match_agent (skills : List String) (jobs : List Job) : BestMatchResult :=
  if jobs.isEmpty || skills.isEmpty then
    .failure "No jobs available or no skills provided"
  else
    let skills_lower := skills.map fun s => stripStr (lowerStr s)
    let job_scores := (scoredJobs skills_lower jobs).filter fun sj => 0 < sj.score
    if job_scores.isEmpty then .failure "No matching jobs found"
    else
      match sortDescBy ScoredJob.score job_scores with
      | [] => .failure "No matching jobs found"
      | best :: rest => .found (mkSummary best (best :: rest).length)

/-- One record of the list returned by find_alternative_matches. -/
structure AltMatch where
  job_title : Option String
  company_name : String
  location : String
  salary : String
  match_score : Nat
  matched_skills : List String
deriving DecidableEq

/-- Project a scored posting onto the record shape of the alternatives list. -/
def toAltMatch (sj : ScoredJob) : AltMatch :=
  { job_title := sj.job_data.job_title
    company_name := sj.job_data.company_name
    location := sj.job_data.location
    salary := sj.job_data.salary.getD "Not specified"
    match_score := sj.score
    matched_skills := sj.matched_skills }

/-- find_alternative_matches of tools.py: empty inputs give []; skills are
lower-cased, postings with positive score are stably sorted by descending
score and the first top_n are returned. (The source sorts the projected
records; as the sort key and relative order survive the projection, sorting
before projecting yields the same list.) -/
def find_alternative_matches (skills : List String) (jobs : List Job) (top_n : Nat) :
    List AltMatch :=
  if jobs.isEmpty || skills.isEmpty then []
  else ((rankedQualified (skills.map lowerStr) jobs).map toAltMatch).take top_n

/-- Mathematical floor of a rational, through flooring integer division. -/
def ratFloor (q : ℚ) : ℤ := q.num.fdiv (q.den : ℤ)

/-- Round to the nearest integer, halves to the even neighbour: the model of
Python's round on an exactly represented value. -/
def roundHalfEven (q : ℚ) : ℤ :=
  if q - (ratFloor q : ℚ) < 1 / 2 then ratFloor q
  else if (1 : ℚ) / 2 < q - (ratFloor q : ℚ) then ratFloor q + 1
  else if ratFloor q % 2 = 0 then ratFloor q else ratFloor q + 1

/-- Model of Python round(q, 1): round to one decimal place. -/
def round1 (q : ℚ) : ℚ := (roundHalfEven (q * 10) : ℚ) / 10

/-- The per-posting text of get_skill_statistics: lower-cased description then
lower-cased title, each followed by one space (the opposite concatenation
order from calculate_job_score). -/
def statJobText (job : Job) : String :=
  (match job.job_description with
    | some d => lowerStr d ++ " "
    | none => "") ++
  (match job.job_title with
    | some t => lowerStr t ++ " "
    | none => "")

/-- get_demand_level of tools.py: Unknown for an empty table, otherwise a
top-down threshold cascade on the exact percentage of mentioning postings. -/
def get_demand_level (job_count : Nat) (total_jobs : Nat) : String :=
  if total_jobs = 0 then "Unknown"
  else
    let percentage : ℚ := (job_count : ℚ) / (total_jobs : ℚ) * 100
    if 50 ≤ percentage then "Very High"
    else if 25 ≤ percentage then "High"
    else if 10 ≤ percentage then "Medium"
    else if 5 ≤ percentage then "Low"
    else "Very Low"

/-- The per-skill statistics record of get_skill_statistics. -/
structure DemandStat where
  jobs_mentioning : Nat
  percentage : ℚ
  demand_level : String
deriving DecidableEq

/-- get_skill_statistics of tools.py, as an association list keyed by the
skill. (The source also concatenates all posting text into one unused string;
that dead assignment is not modelled.) -/
def get_skill_statistics (skills : List String) (jobs : List Job) :
    List (String × DemandStat) :=
  skills.map fun skill =>
    let job_count := jobs.countP fun job => containsSub (statJobText job) (lowerStr skill)
    (skill,
      { jobs_mentioning := job_count
        percentage :=
          if 0 < jobs.length then round1 ((job_count : ℚ) / (jobs.length : ℚ) * 100)
          else 0
        demand_level := get_demand_level job_count jobs.length })

/-- The validation record of validate_resume_text. A `none` field models a
key that is absent from the returned dictionary. -/
structure ValidationResult where
  valid : Bool
  word_count : Option Nat
  sections_found : Option (List String)
  tech_indicators : Option Nat
  issues : List String
  warnings : List String
deriving DecidableEq

/-- The fixed section-keyword list of validate_resume_text. -/
def expectedSections : List String := ["experience", "skills", "education", "work"]

/-- The fixed technical-indicator list of validate_resume_text. -/
def techIndicators : List String :=
  ["python", "javascript", "programming", "software", "development", "technical"]

/-- validate_resume_text of tools.py (ai_agent.py carries an identical copy):
blank text short-circuits to an invalid record holding only the single issue;
otherwise the word-count, section and technical-content checks fill the
warnings and the result is valid. -/
def validate_resume_text (resume_text : String) : ValidationResult :=
  if isBlank resume_text then
    { valid := false
      word_count := none
      sections_found := none
      tech_indicators := none
      issues := ["Resume text is empty"]
      warnings := [] }
  else
    let word_count := wordCount resume_text
    let lengthWarnings :=
      if word_count < 50 then ["Resume seems quite short - consider adding more detail"]
      else if 2000 < word_count then
        ["Resume is very long - extraction might focus on early sections"]
      else []
    let resume_lower := lowerStr resume_text
    let found_sections := expectedSections.filter fun sec => containsSub resume_lower sec
    let sectionWarnings :=
      if found_sections.length < 2 then
        ["Resume might be missing common sections (experience, skills, education)"]
      else []
    let tech_mentions := techIndicators.countP fun t => containsSub resume_lower t
    let techWarnings :=
      if tech_mentions = 0 then ["No technical skills detected - results may be limited"]
      else []
    { valid := true
      word_count := some word_count
      sections_found := some found_sections
      tech_indicators := some tech_mentions
      issues := []
      warnings := lengthWarnings ++ sectionWarnings ++ techWarnings }

/- Spec-side definitions, written from the specification's words, to be
compared with the source-side definitions above. -/

/-- Spec-side per-skill points (§4.1): 2 points if the skill's length is at
most 3 characters, else 3 points if the skill is in the fixed high-value set,
else 1 point, the length check taking priority. -/
def skillPointsSpec (skill : String) : Nat :=
  if strLen skill ≤ 3 then 2
  else if skill ∈ ["python", "javascript", "java", "react", "django"] then 3
  else 1

/-- Spec-side score (§4.1): the sum, over the skills contained as substrings
in the searchable text, of the per-skill points, plus 2 if at least 3 skills
matched and a further 3 if at least 5 matched. -/
def scoreSpec (text : String) (skills : List String) : Nat :=
  ((skills.filter fun s => containsSub text s).map skillPointsSpec).sum
    + (if 3 ≤ (skills.filter fun s => containsSub text s).length then 2 else 0)
    + (if 5 ≤ (skills.filter fun s => containsSub text s).length then 3 else 0)

/-- Spec-side demand-level cascade (§4.3), evaluated top-down with the first
match winning: ≥50 VeryHigh, ≥25 High, ≥10 Medium, ≥5 Low, else VeryLow. -/
def demandLevelSpec (percentage : ℚ) : String :=
  if 50 ≤ percentage then "Very High"
  else if 25 ≤ percentage then "High"
  else if 10 ≤ percentage then "Medium"
  else if 5 ≤ percentage then "Low"
  else "Very Low"

/-- The stable descending ranking order: earlier means a strictly higher
score, or an equal score and an earlier table position. -/
def RankBefore (a b : ScoredJob) : Prop :=
  b.score < a.score ∨ (a.score = b.score ∧ a.index < b.index)

instance : DecidableRel RankBefore := fun a b => by
  unfold RankBefore
  exact inferInstance

instance : IsAntisymm ScoredJob RankBefore := by
  refine ⟨fun a b hab hba => ?_⟩
  rcases hab with h1 | ⟨h1, h2⟩ <;> rcases hba with h3 | ⟨h3, h4⟩ <;> (exfalso; omega)

/-- A sample posting whose text mentions python and sql. -/
def jobPy : Job :=
  ⟨some "Python Developer", "TechCorp", "Remote", some "$100k",
    some "Looking for Python and SQL expert"⟩

/-- A sample posting with no technical content at all. -/
def jobChef : Job :=
  ⟨some "Chef", "Bistro", "Paris", none, some "Cooking fine meals"⟩

/- Helper lemmas about the scoring loop. -/

/-- The scoring loop returns the weight sum and the in-order sublist of the
skills contained in the text. -/
theorem scorePass_eq (text : String) (skills : List String) :
    scorePass text skills =
      (((skills.filter fun s => containsSub text s).map skillWeight).sum,
        skills.filter fun s => containsSub text s) := by
  induction skills with
  | nil => rfl
  | cons s ss ih =>
    by_cases h : containsSub text s <;>
      simp [scorePass, List.filter_cons, h, ih]

/-- Every per-skill weight is at least 1. -/
theorem skillWeight_pos (s : String) : 1 ≤ skillWeight s := by
  unfold skillWeight
  split_ifs <;> omega

/-- A list is no longer than the sum of its per-skill weights. -/
theorem length_le_weightSum (l : List String) : l.length ≤ (l.map skillWeight).sum := by
  induction l with
  | nil => simp
  | cons s ss ih =>
    have := skillWeight_pos s
    simp only [List.map_cons, List.sum_cons, List.length_cons]
    omega

/-- The matched skills of calculate_job_score are the in-order filter of the
input skills by containment in the searchable text. -/
theorem calc_matched (job : Job) (skills : List String) :
    (calculate_job_score job skills).matched_skills =
      if isBlank (jobText job) then [] else skills.filter fun s => containsSub (jobText job) s := by
  by_cases hb : isBlank (jobText job) <;> simp [calculate_job_score, hb, scorePass_eq]

/-- The score of calculate_job_score is the matched weight sum plus the two
threshold bonuses, and 0 on blank text. -/
theorem calc_score (job : Job) (skills : List String) :
    (calculate_job_score job skills).score =
      if isBlank (jobText job) then 0
      else
        ((skills.filter fun s => containsSub (jobText job) s).map skillWeight).sum +
          ((if 3 ≤ (skills.filter fun s => containsSub (jobText job) s).length then 2 else 0) +
            (if 5 ≤ (skills.filter fun s => containsSub (jobText job) s).length then 3 else 0)) := by
  by_cases hb : isBlank (jobText job) <;> simp [calculate_job_score, hb, scorePass_eq]

/-- Claim C10: for every posting and skills list, matched_skills is a
subsequence of the input skills, the score is at least the number of matched
skills, and the score is 0 exactly when no skill matched. -/
theorem score_result_invariants (job : Job) (skills : List String) :
    (calculate_job_score job skills).matched_skills.Sublist skills ∧
    (calculate_job_score job skills).matched_skills.length ≤
      (calculate_job_score job skills).score ∧
    ((calculate_job_score job skills).score = 0 ↔
      (calculate_job_score job skills).matched_skills = []) := by
  rw [calc_matched, calc_score]
  by_cases hb : isBlank (jobText job)
  · simp [hb]
  · have hlen := length_le_weightSum (skills.filter fun s => containsSub (jobText job) s)
    rw [if_neg hb, if_neg hb]
    refine ⟨List.filter_sublist skills, by omega, ?_, ?_⟩
    · intro h0
      exact List.length_eq_zero.mp (by omega)
    · intro hnil
      rw [hnil]
      simp

/-- Claim C2: for every posting with non-blank searchable text and every
skills list, the computed score equals the specification formula: the sum of
per-skill points (2 for length at most 3, else 3 for a high-value skill, else
1) over the skills contained in the text, plus 2 for at least 3 matches and a
further 3 for at least 5. -/
theorem calculate_job_score_formula (job : Job) (skills : List String)
    (h : isBlank (jobText job) = false) :
    (calculate_job_score job skills).score = scoreSpec (jobText job) skills := by
  have hw : skillWeight = skillPointsSpec := rfl
  simp only [calculate_job_score, h, Bool.false_eq_true, if_false, scorePass_eq, scoreSpec, hw]
  omega

/-- Claim C2 witness at the spec's worked example. -/
theorem calculate_job_score_formula_witness :
    (calculate_job_score jobPy ["python", "sql"]).score =
      scoreSpec (jobText jobPy) ["python", "sql"] :=
  calculate_job_score_formula jobPy ["python", "sql"] (by decide)

/-- Claim C6: appending one skill that matches the posting's text never
decreases the computed score. -/
theorem score_monotone_append (job : Job) (skills : List String) (skill : String)
    (h : containsSub (jobText job) skill = true) :
    (calculate_job_score job skills).score ≤
      (calculate_job_score job (skills ++ [skill])).score := by
  cases hb : isBlank (jobText job) with
  | true => simp [calculate_job_score, hb]
  | false =>
    simp only [calculate_job_score, hb, Bool.false_eq_true, if_false, scorePass_eq,
      List.filter_append, List.filter_cons, h, if_true, List.filter_nil, List.map_append,
      List.sum_append, List.length_append, List.map_cons, List.map_nil, List.sum_cons,
      List.sum_nil, List.length_cons, List.length_nil]
    split_ifs <;> omega

/-- Claim C6 witness: adding the matching skill python to the single-skill
list sql does not decrease the score of the sample posting. -/
theorem score_monotone_append_witness :
    (calculate_job_score jobPy ["sql"]).score ≤
      (calculate_job_score jobPy (["sql"] ++ ["python"])).score :=
  score_monotone_append jobPy ["sql"] "python" (by decide)

/-- Claim C9: blank text yields an invalid result carrying exactly the single
issue of the source with no warnings and no further checks; any other text is
valid regardless of the warnings produced. -/
theorem validate_valid_policy (t : String) :
    (isBlank t = true →
      (validate_resume_text t).valid = false ∧
      (validate_resume_text t).issues = ["Resume text is empty"] ∧
      (validate_resume_text t).warnings = []) ∧
    (isBlank t = false → (validate_resume_text t).valid = true) := by
  constructor <;> intro h <;> simp [validate_resume_text, h]

/-- Claim C9 witness: the policy at a blank and at a non-blank input. -/
theorem validate_valid_policy_witness :
    ((validate_resume_text "  ").valid = false ∧
      (validate_resume_text "  ").issues = ["Resume text is empty"] ∧
      (validate_resume_text "  ").warnings = []) ∧
    (validate_resume_text "experience").valid = true :=
  ⟨(validate_valid_policy "  ").1 (by decide),
    (validate_valid_policy "experience").2 (by decide)⟩

/-- Claim C7 counterexample: on empty (or all-whitespace) input the returned
record does not carry the word_count, sections_found and tech_indicators
fields (`none` models a key absent from the returned dictionary), so the
claim fails at the concrete input "". -/
theorem validate_empty_missing_fields :
    (validate_resume_text "").word_count = none ∧
    (validate_resume_text "").sections_found = none ∧
    (validate_resume_text "").tech_indicators = none ∧
    (validate_resume_text "   ").word_count = none := by decide

/-- Claim C7 (amended): for every non-blank resume text the validator
returns all of valid, issues, warnings, word_count, sections_found and
tech_indicators; for blank text only valid, issues and warnings are present,
the other three fields being absent. -/
theorem validate_result_fields (t : String) :
    (isBlank t = false →
      (validate_resume_text t).word_count.isSome = true ∧
      (validate_resume_text t).sections_found.isSome = true ∧
      (validate_resume_text t).tech_indicators.isSome = true) ∧
    (isBlank t = true →
      (validate_resume_text t).word_count = none ∧
      (validate_resume_text t).sections_found = none ∧
      (validate_resume_text t).tech_indicators = none) := by
  constructor <;> intro h <;> simp [validate_resume_text, h]

/-- Claim C7 witness: the field inventory at a non-blank and a blank input. -/
theorem validate_result_fields_witness :
    ((validate_resume_text "experience").word_count.isSome = true ∧
      (validate_resume_text "experience").sections_found.isSome = true ∧
      (validate_resume_text "experience").tech_indicators.isSome = true) ∧
    (validate_resume_text " ").word_count = none :=
  ⟨(validate_result_fields "experience").1 (by decide),
    ((validate_result_fields " ").2 (by decide)).1⟩

/- Helper lemmas about the stable descending sort. -/

/-- The ranking order unfolded. -/
theorem RankBefore_iff (a b : ScoredJob) :
    RankBefore a b ↔ b.score < a.score ∨ (a.score = b.score ∧ a.index < b.index) :=
  Iff.rfl

/-- Inserting is a permutation of consing. -/
theorem insertDescBy_perm (key : α → Nat) (x : α) (l : List α) :
    (insertDescBy key x l).Perm (x :: l) := by
  induction l with
  | nil => rfl
  | cons y ys ih =>
    rw [insertDescBy]
    split
    · exact (ih.cons y).trans (List.Perm.swap x y ys)
    · rfl

/-- The sort permutes its input. -/
theorem sortDescBy_perm (key : α → Nat) (l : List α) :
    (sortDescBy key l).Perm l := by
  induction l with
  | nil => rfl
  | cons x xs ih =>
    rw [sortDescBy]
    exact (insertDescBy_perm key x (sortDescBy key xs)).trans (ih.cons x)

/-- Membership after an insertion. -/
theorem mem_insertDescBy {key : α → Nat} {x a : α} {l : List α} :
    a ∈ insertDescBy key x l ↔ a = x ∨ a ∈ l := by
  rw [(insertDescBy_perm key x l).mem_iff, List.mem_cons]

/-- Inserting an element whose table position precedes every element of an
already ranked list keeps the list ranked. -/
theorem insertDescBy_pairwise_rank {x : ScoredJob} {l : List ScoredJob}
    (hl : l.Pairwise RankBefore) (hx : ∀ y ∈ l, x.index < y.index) :
    (insertDescBy ScoredJob.score x l).Pairwise RankBefore := by
  induction l with
  | nil => simp [insertDescBy]
  | cons y ys ih =>
    rcases List.pairwise_cons.mp hl with ⟨hy, hys⟩
    rw [insertDescBy]
    split
    next hlt =>
      refine List.pairwise_cons.mpr
        ⟨?_, ih hys fun z hz => hx z (List.mem_cons_of_mem y hz)⟩
      intro z hz
      rcases mem_insertDescBy.mp hz with rfl | hz'
      · exact (RankBefore_iff y z).mpr (Or.inl hlt)
      · exact hy z hz'
    next hge =>
      have hge' : y.score ≤ x.score := by omega
      refine List.pairwise_cons.mpr ⟨?_, hl⟩
      intro z hz
      rcases List.mem_cons.mp hz with rfl | hz'
      · by_cases hc : z.score < x.score
        · exact (RankBefore_iff x z).mpr (Or.inl hc)
        · exact (RankBefore_iff x z).mpr (Or.inr ⟨by omega, hx z (List.mem_cons_self _ _)⟩)
      · have hzy : z.score ≤ y.score := by
          rcases (RankBefore_iff y z).mp (hy z hz') with h1 | ⟨h1, _⟩ <;> omega
        by_cases hc : z.score < x.score
        · exact (RankBefore_iff x z).mpr (Or.inl hc)
        · exact (RankBefore_iff x z).mpr
            (Or.inr ⟨by omega, hx z (List.mem_cons_of_mem y hz')⟩)

/-- Sorting a list whose table positions strictly increase yields a list
ranked by descending score with ties in table order. -/
theorem sortDescBy_pairwise_rank {l : List ScoredJob}
    (h : l.Pairwise fun a b => a.index < b.index) :
    (sortDescBy ScoredJob.score l).Pairwise RankBefore := by
  induction l with
  | nil => simp [sortDescBy]
  | cons x xs ih =>
    rcases List.pairwise_cons.mp h with ⟨hx, hxs⟩
    rw [sortDescBy]
    exact insertDescBy_pairwise_rank (ih hxs)
      fun y hy => hx y ((sortDescBy_perm ScoredJob.score xs).mem_iff.mp hy)

/- Helper lemmas about the scoring pass over the table. -/

/-- Scoring preserves the number of rows. -/
theorem scoreJobsFrom_length (skills : List String) (i : Nat) (js : List Job) :
    (scoreJobsFrom skills i js).length = js.length := by
  induction js generalizing i with
  | nil => rfl
  | cons j rest ih => simp [scoreJobsFrom, ih]

/-- Every scored row's index is at least the starting index. -/
theorem scoreJobsFrom_index_ge (skills : List String) (i : Nat) (js : List Job) :
    ∀ y ∈ scoreJobsFrom skills i js, i ≤ y.index := by
  induction js generalizing i with
  | nil => intro y hy; cases hy
  | cons j rest ih =>
    intro y hy
    rcases List.mem_cons.mp hy with rfl | hy'
    · exact Nat.le_refl i
    · have := ih (i + 1) y hy'
      omega

/-- The scored rows carry strictly increasing table positions. -/
theorem scoreJobsFrom_pairwise (skills : List String) (i : Nat) (js : List Job) :
    (scoreJobsFrom skills i js).Pairwise fun a b => a.index < b.index := by
  induction js generalizing i with
  | nil => simp [scoreJobsFrom]
  | cons j rest ih =>
    refine List.pairwise_cons.mpr ⟨?_, ih (i + 1)⟩
    intro y hy
    have := scoreJobsFrom_index_ge skills (i + 1) rest y hy
    show i < y.index
    omega

/-- Every scored row records the score and matches of its own posting. -/
theorem mem_scoreJobsFrom {skills : List String} {i : Nat} {js : List Job} {y : ScoredJob}
    (h : y ∈ scoreJobsFrom skills i js) :
    y.job_data ∈ js ∧ y.score = (calculate_job_score y.job_data skills).score ∧
      y.matched_skills = (calculate_job_score y.job_data skills).matched_skills := by
  induction js generalizing i with
  | nil => cases h
  | cons j rest ih =>
    rcases List.mem_cons.mp h with rfl | h'
    · exact ⟨List.mem_cons_self _ _, rfl, rfl⟩
    · rcases ih h' with ⟨h1, h2, h3⟩
      exact ⟨List.mem_cons_of_mem _ h1, h2, h3⟩

/-- Every posting of the table appears among the scored rows. -/
theorem scoreJobsFrom_exists (skills : List String) {j : Job} (i : Nat) {js : List Job}
    (h : j ∈ js) :
    ∃ y ∈ scoreJobsFrom skills i js, y.job_data = j ∧
      y.score = (calculate_job_score j skills).score := by
  induction js generalizing i with
  | nil => cases h
  | cons j0 rest ih =>
    rcases List.mem_cons.mp h with rfl | h'
    · exact ⟨_, List.mem_cons_self _ _, rfl, rfl⟩
    · rcases ih (i + 1) h' with ⟨y, hy, h1, h2⟩
      exact ⟨y, List.mem_cons_of_mem _ hy, h1, h2⟩

/-- Counting positive-score rows equals counting positive-score postings. -/
theorem scoreJobsFrom_countP (skills : List String) (i : Nat) (js : List Job) :
    (scoreJobsFrom skills i js).countP (fun y => decide (0 < y.score)) =
      js.countP fun j => decide (0 < (calculate_job_score j skills).score) := by
  induction js generalizing i with
  | nil => rfl
  | cons j rest ih => simp [scoreJobsFrom, List.countP_cons, ih]

/-- Claim C4: the ranking underlying both findBestMatch and the alternatives
path is a permutation of the scored table, ordered by the total order of
descending score with ties broken by original table position; it is the
unique such reordering, so repeated calls with identical inputs yield
identical ordered results. -/
theorem ranking_total_order (skills : List String) (jobs : List Job) :
    (rankedScores skills jobs).Pairwise RankBefore ∧
    (rankedScores skills jobs).Perm (scoredJobs skills jobs) ∧
    (rankedQualified skills jobs).Pairwise RankBefore ∧
    (rankedQualified skills jobs).Perm
      ((scoredJobs skills jobs).filter fun sj => 0 < sj.score) ∧
    ∀ l : List ScoredJob, l.Perm (scoredJobs skills jobs) → l.Pairwise RankBefore →
      l = rankedScores skills jobs := by
  have hpw := scoreJobsFrom_pairwise skills 0 jobs
  have h1 : (rankedScores skills jobs).Pairwise RankBefore := sortDescBy_pairwise_rank hpw
  have h2 := sortDescBy_perm ScoredJob.score (scoredJobs skills jobs)
  have hpwf : ((scoredJobs skills jobs).filter fun sj => 0 < sj.score).Pairwise
      fun a b => a.index < b.index :=
    hpw.sublist (List.filter_sublist _)
  have h3 : (rankedQualified skills jobs).Pairwise RankBefore := sortDescBy_pairwise_rank hpwf
  have h4 := sortDescBy_perm ScoredJob.score
    ((scoredJobs skills jobs).filter fun sj => 0 < sj.score)
  refine ⟨h1, h2, h3, h4, ?_⟩
  intro l hperm hpair
  exact List.eq_of_perm_of_sorted (hperm.trans h2.symm) hpair h1

/-- Claim C4 witness: the sample ranking is the unique stable descending
reordering of the scored sample table. -/
theorem ranking_total_order_witness :
    [⟨0, 3, ["python"], jobPy⟩, ⟨1, 0, [], jobChef⟩] =
      rankedScores ["python"] [jobPy, jobChef] :=
  (ranking_total_order ["python"] [jobPy, jobChef]).2.2.2.2
    [⟨0, 3, ["python"], jobPy⟩, ⟨1, 0, [], jobChef⟩] (by decide) (by decide)

/- Lemmas restated at the indexed scoring of the full table. -/

/-- Row count of the scored table. -/
theorem scoredJobs_length (skills : List String) (jobs : List Job) :
    (scoredJobs skills jobs).length = jobs.length :=
  scoreJobsFrom_length skills 0 jobs

/-- Strictly increasing table positions of the scored table. -/
theorem scoredJobs_pairwise (skills : List String) (jobs : List Job) :
    (scoredJobs skills jobs).Pairwise fun a b => a.index < b.index :=
  scoreJobsFrom_pairwise skills 0 jobs

/-- The ranking permutes the scored table. -/
theorem rankedScores_perm (skills : List String) (jobs : List Job) :
    (rankedScores skills jobs).Perm (scoredJobs skills jobs) :=
  sortDescBy_perm ScoredJob.score (scoredJobs skills jobs)

/-- The ranking is ordered by descending score, ties in table order. -/
theorem rankedScores_pairwise (skills : List String) (jobs : List Job) :
    (rankedScores skills jobs).Pairwise RankBefore :=
  sortDescBy_pairwise_rank (scoredJobs_pairwise skills jobs)

/-- A zero score for calculate_job_score under the empty skill list. -/
theorem calc_score_nil (job : Job) : (calculate_job_score job []).score = 0 := by
  rw [calc_score]
  simp

/-- The head of the ranking carries a maximal score. -/
theorem rankedScores_head_max (skills : List String) (jobs : List Job)
    (b : ScoredJob) (rest : List ScoredJob)
    (hrs : rankedScores skills jobs = b :: rest) :
    ∀ y ∈ scoredJobs skills jobs, y.score ≤ b.score := by
  intro y hy
  have hmem : y ∈ rankedScores skills jobs :=
    (rankedScores_perm skills jobs).mem_iff.mpr hy
  rw [hrs] at hmem
  rcases List.mem_cons.mp hmem with rfl | hmem'
  · exact Nat.le_refl _
  · have hpw := rankedScores_pairwise skills jobs
    rw [hrs] at hpw
    rcases (RankBefore_iff b y).mp ((List.pairwise_cons.mp hpw).1 y hmem') with h1 | ⟨h1, _⟩ <;>
      omega

/-- Claim C1 counterexample: with a table of two postings of which only one
scores positively, the tools.py find_best_job_match reports
total_jobs_analyzed = 2, the full table size, while the number of postings
scoring above 0 is 1, so the claim fails at this input. -/
theorem total_jobs_analyzed_counterexample :
    (find_best_job_match ["python"] [jobPy, jobChef]).totalAnalyzed = some 2 ∧
    ([jobPy, jobChef].countP fun j =>
      decide (0 < (calculate_job_score j ["python"]).score)) = 1 := by decide

/-- Claim C1 (amended): when some posting scores positively, the ai_agent.py
find_best_job_match reports total_jobs_analyzed equal to the number of
postings scoring above 0, while the tools.py find_best_job_match reports the
full table size. -/
theorem total_jobs_analyzed_spec (skills : List String) (jobs : List Job)
    (h1 : ∃ j ∈ jobs, 0 < (calculate_job_score j skills).score)
    (h2 : ∃ j ∈ jobs,
      0 < (calculate_job_score j (skills.map fun s => stripStr (lowerStr s))).score) :
    (∃ s, find_best_job_match skills jobs = .found s ∧
      s.total_jobs_analyzed = jobs.length) ∧
    (∃ t, find_best_job_match_agent skills jobs = .found t ∧
      t.total_jobs_analyzed = jobs.countP fun j =>
        decide (0 < (calculate_job_score j
          (skills.map fun s => stripStr (lowerStr s))).score)) := by
  obtain ⟨j, hj, hjs⟩ := h1
  have hjobs : jobs ≠ [] := by
    intro h
    subst h
    cases hj
  have hskills : skills ≠ [] := by
    intro h
    subst h
    rw [calc_score_nil] at hjs
    omega
  have hempty : (jobs.isEmpty || skills.isEmpty) = false := by
    cases jobs with
    | nil => exact absurd rfl hjobs
    | cons a l =>
      cases skills with
      | nil => exact absurd rfl hskills
      | cons b m => rfl
  constructor
  · -- tools.py variant
    have hlen : (rankedScores skills jobs).length = jobs.length := by
      rw [(rankedScores_perm skills jobs).length_eq, scoredJobs_length]
    cases hrs : rankedScores skills jobs with
    | nil =>
      rw [hrs] at hlen
      cases jobs with
      | nil => exact absurd rfl hjobs
      | cons a l => simp at hlen
    | cons b rest =>
      obtain ⟨y, hy, hyj, hyscore⟩ := scoreJobsFrom_exists skills 0 hj
      have hbpos : 0 < b.score := by
        have := rankedScores_head_max skills jobs b rest hrs y hy
        omega
      refine ⟨mkSummary b (b :: rest).length, ?_, ?_⟩
      · simp only [find_best_job_match, hempty, Bool.false_eq_true, if_false, hrs]
        rw [if_neg (by omega)]
      · show (b :: rest).length = jobs.length
        rw [← hrs]
        exact hlen
  · -- ai_agent.py variant
    obtain ⟨j2, hj2, hjs2⟩ := h2
    obtain ⟨y2, hy2, hyj2, hyscore2⟩ :=
      scoreJobsFrom_exists (skills.map fun s => stripStr (lowerStr s)) 0 hj2
    have hy2f : y2 ∈ (scoredJobs (skills.map fun s => stripStr (lowerStr s)) jobs).filter
        fun sj => decide (0 < sj.score) :=
      List.mem_filter.mpr ⟨hy2, by simp [hyscore2]; omega⟩
    have hfne : (scoredJobs (skills.map fun s => stripStr (lowerStr s)) jobs).filter
        (fun sj => decide (0 < sj.score)) ≠ [] := by
      intro h
      rw [h] at hy2f
      cases hy2f
    have hflen : ((scoredJobs (skills.map fun s => stripStr (lowerStr s)) jobs).filter
        (fun sj => decide (0 < sj.score))).length = jobs.countP fun j =>
          decide (0 < (calculate_job_score j
            (skills.map fun s => stripStr (lowerStr s))).score) := by
      rw [← List.countP_eq_length_filter]
      exact scoreJobsFrom_countP (skills.map fun s => stripStr (lowerStr s)) 0 jobs
    cases hq : (scoredJobs (skills.map fun s => stripStr (lowerStr s)) jobs).filter
        (fun sj => decide (0 < sj.score)) with
    | nil => exact absurd hq hfne
    | cons q qs =>
      cases hsq : sortDescBy ScoredJob.score (q :: qs) with
      | nil =>
        have := (sortDescBy_perm ScoredJob.score (q :: qs)).length_eq
        rw [hsq] at this
        simp at this
      | cons best rest =>
        refine ⟨mkSummary best (best :: rest).length, ?_, ?_⟩
        · simp only [find_best_job_match_agent, hempty, Bool.false_eq_true, if_false, hq,
            List.isEmpty_cons, hsq]
        · show (best :: rest).length = _
          rw [← hsq, (sortDescBy_perm ScoredJob.score (q :: qs)).length_eq, ← hq, hflen]

/-- Claim C1 witness for the amended statement, at the two-posting sample
table where only the first posting matches. -/
theorem total_jobs_analyzed_spec_witness :
    (∃ s, find_best_job_match ["python"] [jobPy, jobChef] = .found s ∧
      s.total_jobs_analyzed = [jobPy, jobChef].length) ∧
    (∃ t, find_best_job_match_agent ["python"] [jobPy, jobChef] = .found t ∧
      t.total_jobs_analyzed = [jobPy, jobChef].countP fun j =>
        decide (0 < (calculate_job_score j
          (["python"].map fun s => stripStr (lowerStr s))).score)) :=
  total_jobs_analyzed_spec ["python"] [jobPy, jobChef]
    ⟨jobPy, by decide, by decide⟩ ⟨jobPy, by decide, by decide⟩

/-- Claim C5 counterexample: find_alternative_matches returns the identical
empty list for an empty postings table and for a non-empty table in which no
posting scores above 0, so for this operation the NotFound condition is not
distinguishable from the empty-input condition. -/
theorem alternatives_indistinguishable :
    find_alternative_matches ["python"] [] 5 = [] ∧
    find_alternative_matches ["python"] [jobChef] 5 = [] ∧
    find_alternative_matches ["python"] [] 5 =
      find_alternative_matches ["python"] [jobChef] 5 := by decide

/-- Claim C5 (amended): empty inputs make find_best_job_match return its
empty-input error record and find_alternative_matches return [], without
raising; when both inputs are non-empty and no posting scores above 0,
find_best_job_match returns a distinct NotFound error record, while
find_alternative_matches again returns the empty list, indistinguishable
from its empty-input result. -/
theorem error_reporting (skills : List String) (jobs : List Job) (n : Nat) :
    ((jobs = [] ∨ skills = []) →
      find_best_job_match skills jobs =
        .failure "No jobs available or no skills provided" ∧
      find_alternative_matches skills jobs n = []) ∧
    (jobs ≠ [] → skills ≠ [] →
      (∀ j ∈ jobs, (calculate_job_score j skills).score = 0) →
      find_best_job_match skills jobs = .failure "No matching jobs found") ∧
    (jobs ≠ [] → skills ≠ [] →
      (∀ j ∈ jobs, (calculate_job_score j (skills.map lowerStr)).score = 0) →
      find_alternative_matches skills jobs n = []) := by
  refine ⟨?_, ?_, ?_⟩
  · rintro (rfl | rfl) <;> simp [find_best_job_match, find_alternative_matches]
  · intro hjobs hskills hall
    have hempty : (jobs.isEmpty || skills.isEmpty) = false := by
      cases jobs with
      | nil => exact absurd rfl hjobs
      | cons a l =>
        cases skills with
        | nil => exact absurd rfl hskills
        | cons b m => rfl
    cases hrs : rankedScores skills jobs with
    | nil =>
      simp only [find_best_job_match, hempty, Bool.false_eq_true, if_false, hrs]
    | cons b rest =>
      have hb0 : b.score = 0 := by
        have hbmem : b ∈ scoredJobs skills jobs :=
          (rankedScores_perm skills jobs).mem_iff.mp
            (by rw [hrs]; exact List.mem_cons_self _ _)
        obtain ⟨hbj, hbs, _⟩ := mem_scoreJobsFrom hbmem
        rw [hbs]
        exact hall _ hbj
      simp only [find_best_job_match, hempty, Bool.false_eq_true, if_false, hrs]
      rw [if_pos hb0]
  · intro hjobs hskills hall
    have hempty : (jobs.isEmpty || skills.isEmpty) = false := by
      cases jobs with
      | nil => exact absurd rfl hjobs
      | cons a l =>
        cases skills with
        | nil => exact absurd rfl hskills
        | cons b m => rfl
    have hfil : (scoredJobs (skills.map lowerStr) jobs).filter
        (fun sj => decide (0 < sj.score)) = [] := by
      rw [List.filter_eq_nil_iff]
      intro y hy
      obtain ⟨hyj, hys, _⟩ := mem_scoreJobsFrom hy
      simp [hys, hall _ hyj]
    simp only [find_alternative_matches, hempty, Bool.false_eq_true, if_false,
      rankedQualified, hfil]
    simp [sortDescBy]

/-- Claim C5 witness: the reported conditions at an empty table and at a
table whose single posting matches nothing. -/
theorem error_reporting_witness :
    (find_best_job_match ["python"] [] =
        .failure "No jobs available or no skills provided" ∧
      find_alternative_matches ["python"] [] 5 = []) ∧
    find_best_job_match ["python"] [jobChef] = .failure "No matching jobs found" ∧
    find_alternative_matches ["python"] [jobChef] 5 = [] :=
  ⟨(error_reporting ["python"] [] 5).1 (Or.inl rfl),
    (error_reporting ["python"] [jobChef] 5).2.1 (by decide) (by decide) (by decide),
    (error_reporting ["python"] [jobChef] 5).2.2 (by decide) (by decide) (by decide)⟩

/-- Claim C8: whenever find_best_job_match returns a best-match record, its
job_description field is some posting's description (missing description read
as empty) truncated to 300 characters with a trailing ellipsis marker. -/
theorem best_match_truncation (skills : List String) (jobs : List Job) (d : String)
    (h : (find_best_job_match skills jobs).descriptionField = some d) :
    ∃ job ∈ jobs, d = strTake (job.job_description.getD "") 300 ++ "..." := by
  by_cases hempty : (jobs.isEmpty || skills.isEmpty) = true
  · rw [find_best_job_match, if_pos hempty] at h
    cases h
  · have hempty' : (jobs.isEmpty || skills.isEmpty) = false := by
      cases hx : (jobs.isEmpty || skills.isEmpty) with
      | false => rfl
      | true => exact absurd hx hempty
    cases hrs : rankedScores skills jobs with
    | nil =>
      simp only [find_best_job_match, hempty', Bool.false_eq_true, if_false, hrs] at h
      cases h
    | cons b rest =>
      simp only [find_best_job_match, hempty', Bool.false_eq_true, if_false, hrs] at h
      by_cases hb0 : b.score = 0
      · rw [if_pos hb0] at h
        cases h
      · rw [if_neg hb0] at h
        have hd : d = strTake (b.job_data.job_description.getD "") 300 ++ "..." := by
          simp [BestMatchResult.descriptionField, mkSummary] at h
          exact h.symm
        have hbmem : b ∈ scoredJobs skills jobs :=
          (rankedScores_perm skills jobs).mem_iff.mp
            (by rw [hrs]; exact List.mem_cons_self _ _)
        obtain ⟨hbj, _, _⟩ := mem_scoreJobsFrom hbmem
        exact ⟨b.job_data, hbj, hd⟩

/-- Claim C8 witness: the returned description at the sample table is the
sample posting's description with the trailing ellipsis marker. -/
theorem best_match_truncation_witness :
    ∃ job ∈ [jobPy],
      "Looking for Python and SQL expert..." =
        strTake (job.job_description.getD "") 300 ++ "..." :=
  best_match_truncation ["python"] [jobPy] "Looking for Python and SQL expert..."
    (by decide)

/-- The demand-level cascade of the source equals the specification cascade
on the exact percentage, for a non-empty table. -/
theorem get_demand_level_spec (job_count total_jobs : Nat) (h : total_jobs ≠ 0) :
    get_demand_level job_count total_jobs =
      demandLevelSpec (100 * (job_count : ℚ) / (total_jobs : ℚ)) := by
  have heq : (job_count : ℚ) / (total_jobs : ℚ) * 100 =
      100 * (job_count : ℚ) / (total_jobs : ℚ) := by ring
  simp only [get_demand_level, demandLevelSpec, if_neg h, heq]

/-- Claim C3: every reported statistic counts the postings whose searchable
text contains the lower-cased skill; an empty table reports percentage 0 and
demand level Unknown; a non-empty table reports
percentage = round(100 * count / total, 1) and the demand level of the
top-down first-match threshold cascade on the exact percentage. -/
theorem skill_statistics_spec (skills : List String) (jobs : List Job)
    (skill : String) (stat : DemandStat)
    (hmem : (skill, stat) ∈ get_skill_statistics skills jobs) :
    stat.jobs_mentioning =
      jobs.countP (fun job => containsSub (statJobText job) (lowerStr skill)) ∧
    (jobs = [] → stat.percentage = 0 ∧ stat.demand_level = "Unknown") ∧
    (jobs ≠ [] →
      stat.percentage = round1 (100 * (stat.jobs_mentioning : ℚ) / (jobs.length : ℚ)) ∧
      stat.demand_level =
        demandLevelSpec (100 * (stat.jobs_mentioning : ℚ) / (jobs.length : ℚ))) := by
  obtain ⟨s, hs, heq⟩ := List.mem_map.mp hmem
  rw [Prod.mk.injEq] at heq
  obtain ⟨rfl, rfl⟩ := heq
  refine ⟨rfl, ?_, ?_⟩
  · rintro rfl
    exact ⟨by simp, by simp [get_demand_level]⟩
  · intro hne
    have hlen : 0 < jobs.length := List.length_pos.mpr hne
    have hlen' : jobs.length ≠ 0 := by omega
    constructor
    · show (if 0 < jobs.length then
          round1 ((jobs.countP fun job => containsSub (statJobText job) (lowerStr s) : ℚ) /
            (jobs.length : ℚ) * 100)
        else 0) = _
      rw [if_pos hlen]
      have heq2 : ((jobs.countP fun job => containsSub (statJobText job) (lowerStr s) : Nat) : ℚ) /
          (jobs.length : ℚ) * 100 =
          100 * ((jobs.countP fun job => containsSub (statJobText job) (lowerStr s) : Nat) : ℚ) /
            (jobs.length : ℚ) := by ring
      rw [heq2]
    · exact get_demand_level_spec _ _ hlen'

/-- Claim C3 witness: the statistic of python over the sample table, where it
is mentioned by 1 of 2 postings, reports the rounded percentage 50 and the
Very High level of the specification cascade. -/
theorem skill_statistics_spec_witness :
    (50 : ℚ) = round1 (100 * ((1 : Nat) : ℚ) / (([jobPy, jobChef] : List Job).length : ℚ)) ∧
    "Very High" =
      demandLevelSpec (100 * ((1 : Nat) : ℚ) / (([jobPy, jobChef] : List Job).length : ℚ)) :=
  (skill_statistics_spec ["python"] [jobPy, jobChef] "python" ⟨1, 50, "Very High"⟩
    (by with_unfolding_all decide)).2.2 (by decide)

end JobMatch
